import Mathlib

/-!
# Verification of the Yosys script refinement loop (`yosys_loop_agent.py`)

Shallow embedding of the bounded generate/execute/evaluate retry loop in
`src/yosys_loop_agent.py`.  The LangGraph wiring
(`set_entry_point("generate_yosys_script")`, unconditional edges
generate → execute → evaluate, and the conditional edge
`evaluate_execution → should_continue_yosys`) is modelled by the fuelled
driver `runCycles`, which runs whole generate/execute/evaluate cycles while
`game_over` is false.

The two external collaborators are modelled as oracles:
* the Proposer (the LLM call plus `extract_script_from_text`) is a stream
  `Nat → Option String`: `some s` means a usable script `s` was extracted,
  `none` means `extract_script_from_text` returned the empty string;
* the Executor (the `subprocess.run` call on the yosys executable) is a stream
  `Nat → ExecOutcome` giving the outcome of each subprocess invocation.

`RunState` carries, besides the agent state dictionary itself, instrumentation
counters (number of Proposer / Executor invocations, number of corrective
re-prompts, temporary files created and deleted) that let us state the
claims about invocation counts and resource release.
-/

/-- The `feedback` field of `YosysAgentState`:
`Literal["success", "failure", "timeout", "error", None]`, plus the value
`"max_iterations_reached"` that `evaluate_execution` writes into it. -/
inductive Feedback where
  | null
  | success
  | failure
  | timeout
  | error
  | max_iterations_reached
deriving DecidableEq, Repr

/-- Outcome of one `subprocess.run` invocation of yosys on the script file in
`execute_yosys_script`: normal completion, `subprocess.TimeoutExpired`,
`subprocess.CalledProcessError` (non-zero exit), `FileNotFoundError`
(the `yosys` executable is absent), or any other exception. -/
inductive ExecOutcome where
  | completed (stdout stderr : String)
  | timedOut
  | calledProcessError (returncode : Int) (stdout stderr : String)
  | fileNotFound
  | otherException (message : String)
deriving DecidableEq, Repr

/-- The Executor outcomes the loop treats as recoverable (the branches of
`execute_yosys_script` that set `feedback` to `"timeout"` or `"failure"`
without setting `game_over`). -/
def ExecOutcome.recoverable : ExecOutcome → Bool
  | .timedOut => true
  | .calledProcessError _ _ _ => true
  | _ => false

/-- The `feedback` value written by the branch of `execute_yosys_script`
that handles each outcome. -/
def ExecOutcome.feedbackOf : ExecOutcome → Feedback
  | .completed _ _ => .success
  | .timedOut => .timeout
  | .calledProcessError _ _ _ => .failure
  | .fileNotFound => .error
  | .otherException _ => .error

/-- Whether the branch of `execute_yosys_script` handling the outcome sets
`game_over` itself (the success branch and the two exception branches do). -/
def ExecOutcome.setsGameOver : ExecOutcome → Bool
  | .completed _ _ => true
  | .fileNotFound => true
  | .otherException _ => true
  | _ => false

/-- Whether the branch of `execute_yosys_script` handling the outcome calls
`os.unlink` on the temporary script file (the success, timeout and
CalledProcessError branches do; the `FileNotFoundError` and generic
exception branches do not). -/
def ExecOutcome.unlinks : ExecOutcome → Bool
  | .completed _ _ => true
  | .timedOut => true
  | .calledProcessError _ _ _ => true
  | _ => false

/-- The fatal outcomes: the two exception branches that abort the loop. -/
def ExecOutcome.fatal : ExecOutcome → Bool
  | .fileNotFound => true
  | .otherException _ => true
  | _ => false

/-- The `YosysAgentState` TypedDict, with every key present (as it is
throughout any run started from `run_yosys_script_loop`, whose initial state
defines all twelve keys).  `message_count` models `len(message_history)`. -/
structure YosysAgentState where
  verilog_path : String
  sdc_path : String
  iteration : Nat
  max_iterations : Nat
  current_script : String
  last_script : Option String
  execution_log : String
  last_execution_log : Option String
  feedback : Feedback
  game_over : Bool
  message_count : Nat
  output_file : String
  error_details : String
deriving DecidableEq, Repr

/-- The agent state threaded through the graph, together with instrumentation
counters maintained by the driver: how many times the Proposer (LLM) and the
Executor (`subprocess.run`) were invoked, how many corrective re-prompts were
appended, and how many temporary `.ys` script files were created
(`tempfile.NamedTemporaryFile(..., delete=False)`) and deleted
(`os.unlink`). -/
structure RunState where
  agent : YosysAgentState
  proposer_calls : Nat
  executor_calls : Nat
  re_prompts : Nat
  temp_created : Nat
  temp_deleted : Nat
deriving DecidableEq, Repr

/-- `generate_yosys_script` (lines 114-174).  The node always appends the
prompt and the LLM reply to `message_history` (+2) and consumes one
Proposer response.  If `extract_script_from_text` found no script (`resp =
none`) it appends the corrective re-prompt `"Please generate a valid Yosys
script ..."` (+1) and returns with `iteration` and `current_script`
untouched; otherwise it stores the script and increments `iteration`.
(The initial `initialize_yosys_game(state)` call is the identity here
because every key is already present; see `initialize_id` below.) -/
def generate_yosys_script (resp : Option String) (rs : RunState) : RunState :=
  let s := rs.agent
  match resp with
  | none =>
      { rs with
        agent := { s with message_count := s.message_count + 3 }
        proposer_calls := rs.proposer_calls + 1
        re_prompts := rs.re_prompts + 1 }
  | some script =>
      { rs with
        agent := { s with
          message_count := s.message_count + 2
          current_script := script
          iteration := s.iteration + 1 }
        proposer_calls := rs.proposer_calls + 1 }

/-- `execute_yosys_script` (lines 176-233).  A temporary script file is
always created first; it is unlinked on the completed / timeout /
CalledProcessError branches but **not** on the `FileNotFoundError` or generic
`Exception` branches.  Finally `last_script` and `last_execution_log` are
updated from the current values. -/
def execute_yosys_script (outcome : ExecOutcome) (rs : RunState) : RunState :=
  let s := rs.agent
  let s' : YosysAgentState :=
    match outcome with
    | .completed out err =>
        { s with
          feedback := .success
          game_over := true
          execution_log :=
            "Yosys execution completed successfully!\n\nSTDOUT:\n" ++ out ++ "\n"
              ++ (if err = "" then "" else "STDERR:\n" ++ err ++ "\n") }
    | .timedOut =>
        { s with
          feedback := .timeout
          execution_log := "Yosys execution timed out after 60 seconds"
          error_details := "Script execution timed out" }
    | .calledProcessError rc out err =>
        { s with
          feedback := .failure
          execution_log :=
            "Yosys execution failed with return code " ++ toString rc
              ++ "\n\nSTDOUT:\n" ++ out ++ "\nSTDERR:\n" ++ err ++ "\n"
          error_details := "Return code: " ++ toString rc ++ ", Error: " ++ err }
    | .fileNotFound =>
        { s with
          feedback := .error
          execution_log :=
            "Yosys tool is not installed or not in PATH. Please install Yosys first."
          error_details := "Yosys not found"
          game_over := true }
    | .otherException msg =>
        { s with
          feedback := .error
          execution_log := "Error running Yosys tool: " ++ msg
          error_details := msg
          game_over := true }
  let s'' := { s' with
    last_script := some s'.current_script
    last_execution_log := some s'.execution_log }
  { rs with
    agent := s''
    executor_calls := rs.executor_calls + 1
    temp_created := rs.temp_created + 1
    temp_deleted := rs.temp_deleted +
      (match outcome with
       | .completed _ _ => 1
       | .timedOut => 1
       | .calledProcessError _ _ _ => 1
       | .fileNotFound => 0
       | .otherException _ => 0) }

/-- `evaluate_execution` (lines 235-243). -/
def evaluate_execution (rs : RunState) : RunState :=
  let s := rs.agent
  if s.feedback = .success then
    { rs with agent := { s with game_over := true } }
  else if s.max_iterations ≤ s.iteration then
    { rs with agent := { s with game_over := true, feedback := .max_iterations_reached } }
  else
    rs

/-- `should_continue_yosys` (lines 245-249): `END` when `game_over`,
otherwise loop back to `"generate_yosys_script"`. -/
def should_continue_yosys (s : YosysAgentState) : Bool :=
  !s.game_over

/-- One pass through the three graph nodes, consuming one Proposer response
and one Executor outcome. -/
def cycle (resp : Option String) (outcome : ExecOutcome) (rs : RunState) : RunState :=
  evaluate_execution (execute_yosys_script outcome (generate_yosys_script resp rs))

/-- The compiled graph's execution, with `fuel` bounding the number of
cycles (the Python loop has no such bound; every claim is stated for all
fuel values, or for enough fuel to reach termination).  A cycle runs only
while `should_continue_yosys` allows it, i.e. while `game_over` is false;
the entry point goes straight into `generate_yosys_script`. -/
def runCycles (fuel : Nat) (props : Nat → Option String) (execs : Nat → ExecOutcome)
    (rs : RunState) : RunState :=
  match fuel with
  | 0 => rs
  | fuel + 1 =>
      if rs.agent.game_over then rs
      else runCycles fuel props execs
        (cycle (props rs.proposer_calls) (execs rs.executor_calls) rs)

/-- The `initial_state` dictionary built by `run_yosys_script_loop`
(lines 272-287): every key present, `iteration = 0`, `message_history = []`,
`output_file = ""`. -/
def initAgent (verilog_path sdc_path : String) (max_iterations : Nat) : YosysAgentState :=
  { verilog_path := verilog_path
    sdc_path := sdc_path
    iteration := 0
    max_iterations := max_iterations
    current_script := ""
    last_script := none
    execution_log := ""
    last_execution_log := none
    feedback := .null
    game_over := false
    message_count := 0
    output_file := ""
    error_details := "" }

/-- Fresh `RunState` for one invocation of `run_yosys_script_loop`. -/
def initRun (verilog_path sdc_path : String) (max_iterations : Nat) : RunState :=
  { agent := initAgent verilog_path sdc_path max_iterations
    proposer_calls := 0
    executor_calls := 0
    re_prompts := 0
    temp_created := 0
    temp_deleted := 0 }

/-- `run_yosys_script_loop(verilog_path, sdc_path, max_iterations)`
(lines 264-327): build the initial state and run the graph.  The printing is
pure I/O and is not modelled; the returned final state is. -/
def run_yosys_script_loop (fuel : Nat) (props : Nat → Option String)
    (execs : Nat → ExecOutcome) (verilog_path sdc_path : String)
    (max_iterations : Nat) : RunState :=
  runCycles fuel props execs (initRun verilog_path sdc_path max_iterations)

/-! ## The state dictionary with optional keys, and `initialize_yosys_game`

`initialize_yosys_game` (lines 32-71) works on a Python dict in which keys
may be absent; `Option` encodes presence.  For keys whose Python value may
itself be `None` (`last_script`, `last_execution_log`, `feedback`) the inner
type is optional (or has a `null` constructor) as well. -/

/-- `YosysAgentState` as a dictionary with possibly-missing keys. -/
structure YosysStateDict where
  verilog_path : Option String
  sdc_path : Option String
  iteration : Option Nat
  max_iterations : Option Nat
  current_script : Option String
  last_script : Option (Option String)
  execution_log : Option String
  last_execution_log : Option (Option String)
  feedback : Option Feedback
  game_over : Option Bool
  message_count : Option Nat
  output_file : Option String
  error_details : Option String
deriving DecidableEq, Repr

/-- Character constants written via code points. -/
def nl : Char := Char.ofNat 10

def tabChar : Char := Char.ofNat 9

def crChar : Char := Char.ofNat 13

def vtChar : Char := Char.ofNat 11

def ffChar : Char := Char.ofNat 12

def apos : Char := Char.ofNat 39

/-- Python `str.split(sep)` for a one-character separator: splitting the
empty string gives `[""]`, and `n` separators give `n+1` pieces. -/
def split_on_char (sep : Char) : List Char → List (List Char)
  | [] => [[]]
  | c :: rest =>
      if c = sep then [] :: split_on_char sep rest
      else
        match split_on_char sep rest with
        | [] => [[c]]
        | l :: ls => (c :: l) :: ls

/-- Python split of the text on the newline character. -/
def splitLines (l : List Char) : List (List Char) :=
  split_on_char nl l

/-- Python newline-join of the lines. -/
def joinLines : List (List Char) → List Char
  | [] => []
  | [l] => l
  | l :: ls => l ++ nl :: joinLines ls

/-- The characters removed by Python `str.strip()`. -/
def pyIsSpace (c : Char) : Bool :=
  c = ' ' || c = tabChar || c = nl || c = crChar || c = vtChar || c = ffChar

/-- Python `str.strip()`. -/
def pyStrip (l : List Char) : List Char :=
  ((l.dropWhile pyIsSpace).reverse.dropWhile pyIsSpace).reverse

/-- Python `str.lower()` (the scripts involved are ASCII). -/
def pyLower (l : List Char) : List Char :=
  l.map Char.toLower

/-- Python `needle in hay` substring containment. -/
def containsSub (needle hay : List Char) : Bool :=
  hay.tails.any (fun t => needle.isPrefixOf t)

/-- `os.path.basename` (POSIX): the part after the last slash. -/
def pyBasename (p : List Char) : List Char :=
  ((split_on_char '/' p).reverse).headD []

/-- Index of the last occurrence of `c`, if any. -/
def last_index_of (c : Char) (l : List Char) : Option Nat :=
  match l.reverse.findIdx? (fun x => x = c) with
  | none => none
  | some j => some (l.length - 1 - j)

/-- The root part of `os.path.splitext` on a slash-free name: cut at the last
dot unless every character before it is a dot (leading-dot filenames keep
their dots). -/
def py_splitext_base (p : List Char) : List Char :=
  match last_index_of '.' p with
  | none => p
  | some k => if (p.take k).all (fun c => c = '.') then p else p.take k

/-- The output filename derived at lines 68-69:
`f"{os.path.splitext(os.path.basename(verilog_path))[0]}_synthesized_netlist.v"`. -/
def derive_output_file (v : String) : String :=
  String.mk (py_splitext_base (pyBasename v.toList)) ++ "_synthesized_netlist.v"

/-- `initialize_yosys_game` (lines 32-71): fill each missing key with its
default; derive `output_file` from `verilog_path` only when the
`"output_file"` key is absent and `verilog_path` is present and non-empty
(Python truthiness of `state.get("verilog_path")`).  The `message_history`
default is the one-element system-message list, modelled by its length. -/
def initialize_yosys_game (d : YosysStateDict) : YosysStateDict :=
  let d := if d.iteration.isNone then { d with iteration := some 0 } else d
  let d := if d.max_iterations.isNone then { d with max_iterations := some 5 } else d
  let d := if d.feedback.isNone then { d with feedback := some .null } else d
  let d := if d.game_over.isNone then { d with game_over := some false } else d
  let d := if d.current_script.isNone then { d with current_script := some "" } else d
  let d := if d.last_script.isNone then { d with last_script := some none } else d
  let d := if d.execution_log.isNone then { d with execution_log := some "" } else d
  let d := if d.last_execution_log.isNone then { d with last_execution_log := some none } else d
  let d := if d.error_details.isNone then { d with error_details := some "" } else d
  let d := if d.message_count.isNone then { d with message_count := some 1 } else d
  if d.output_file.isNone && (d.verilog_path.getD "") ≠ "" then
    { d with output_file := some (derive_output_file (d.verilog_path.getD "")) }
  else d

/-- The fully-populated dictionary corresponding to a total agent state. -/
def YosysAgentState.toDict (s : YosysAgentState) : YosysStateDict :=
  { verilog_path := some s.verilog_path
    sdc_path := some s.sdc_path
    iteration := some s.iteration
    max_iterations := some s.max_iterations
    current_script := some s.current_script
    last_script := some s.last_script
    execution_log := some s.execution_log
    last_execution_log := some s.last_execution_log
    feedback := some s.feedback
    game_over := some s.game_over
    message_count := some s.message_count
    output_file := some s.output_file
    error_details := some s.error_details }

/-! ## `extract_script_from_text` (lines 73-112) -/

/-- The recognised Yosys command keywords (line 101 and line 109). -/
def yosys_commands : List (List Char) :=
  ["read_verilog", "read_sdc", "synth", "write_verilog", "write_json",
   "stat", "opt", "hierarchy", "flatten", "show", "abc",
   "write_edif"].map String.toList

/-- Lines `73-112` accept a (stripped) line when it starts with `#` or its
lowercasing contains one of the command keywords. -/
def looks_like_yosys_command (line : List Char) : Bool :=
  ("#".toList).isPrefixOf line
    || yosys_commands.any (fun cmd => containsSub cmd (pyLower line))

/-- The explanatory-text markers skipped at line 94. -/
def skip_words : List (List Char) :=
  ["here".toList ++ [apos] ++ "s".toList,
   "to generate".toList, "you can".toList, "step".toList, "note:".toList,
   "key points:".toList, "make sure".toList, "adjust".toList,
   "if you".toList, "for example".toList]

/-- Accumulator of the first extraction pass (lines 76-102). -/
structure ExtractState where
  in_code_block : Bool
  in_script_section : Bool
  script_lines : List (List Char)
deriving DecidableEq, Repr

/-- One line of the first extraction pass (lines 80-102): toggle on a
code-fence line, enter the script section on a marker line, drop
explanatory lines, and otherwise collect Yosys-looking lines while inside a
code block or script section. -/
def extract_step (st : ExtractState) (raw : List Char) : ExtractState :=
  let line := pyStrip raw
  if ("```".toList).isPrefixOf line then
    { st with in_code_block := !st.in_code_block }
  else if containsSub ("yosys synthesis script".toList) (pyLower line)
      || containsSub ("here".toList ++ [apos] ++ "s the".toList) (pyLower line) then
    { st with in_script_section := true }
  else if skip_words.any (fun w => containsSub w (pyLower line)) then
    st
  else if (st.in_code_block || st.in_script_section) && !line.isEmpty
      && looks_like_yosys_command line then
    { st with script_lines := st.script_lines ++ [line] }
  else
    st

/-- `extract_script_from_text` over the character list of the input text:
run the first pass; if it collected nothing, fall back to collecting every
Yosys-looking line of the whole text (lines 104-110); join with newlines and
strip (line 112). -/
def extract_script_from_text (text : List Char) : List Char :=
  let lines := splitLines text
  let firstPass := (lines.foldl extract_step ⟨false, false, []⟩).script_lines
  let script_lines :=
    if firstPass.isEmpty then
      lines.filterMap (fun raw =>
        let line := pyStrip raw
        if looks_like_yosys_command line then some line else none)
    else firstPass
  pyStrip (joinLines script_lines)

/-! ## Lemmas about the loop -/

/-- On a state with every key present, `initialize_yosys_game` changes
nothing: every `if "key" not in state` guard is false, including the
`output_file` derivation guard.  This justifies dropping the
`initialize_yosys_game` call from `generate_yosys_script` in the loop
model. -/
theorem initialize_total_id (s : YosysAgentState) :
    initialize_yosys_game s.toDict = s.toDict := by
  simp [initialize_yosys_game, YosysAgentState.toDict]

/-- Field-level description of one cycle on a usable proposal. -/
theorem cycle_spec_some (script : String) (e : ExecOutcome) (rs : RunState) :
    (cycle (some script) e rs).agent.iteration = rs.agent.iteration + 1 ∧
    (cycle (some script) e rs).agent.max_iterations = rs.agent.max_iterations ∧
    (cycle (some script) e rs).agent.output_file = rs.agent.output_file ∧
    (cycle (some script) e rs).agent.current_script = script ∧
    (cycle (some script) e rs).proposer_calls = rs.proposer_calls + 1 ∧
    (cycle (some script) e rs).executor_calls = rs.executor_calls + 1 ∧
    (cycle (some script) e rs).re_prompts = rs.re_prompts ∧
    (cycle (some script) e rs).temp_created = rs.temp_created + 1 ∧
    (cycle (some script) e rs).temp_deleted
      = rs.temp_deleted + (if e.unlinks then 1 else 0) ∧
    (cycle (some script) e rs).agent.game_over
      = (e.setsGameOver || rs.agent.game_over
          || decide (rs.agent.max_iterations ≤ rs.agent.iteration + 1)) ∧
    (cycle (some script) e rs).agent.feedback
      = (if e.feedbackOf = .success then .success
         else if rs.agent.max_iterations ≤ rs.agent.iteration + 1 then
           .max_iterations_reached
         else e.feedbackOf) := by
  by_cases h : rs.agent.max_iterations ≤ rs.agent.iteration + 1 <;>
    cases e <;>
      simp [cycle, generate_yosys_script, execute_yosys_script,
        evaluate_execution, ExecOutcome.unlinks, ExecOutcome.setsGameOver,
        ExecOutcome.feedbackOf, h]

/-- Field-level description of one cycle on an unusable proposal: the
iteration and script are untouched, one corrective re-prompt is appended,
and the Executor is nevertheless invoked once. -/
theorem cycle_spec_none (e : ExecOutcome) (rs : RunState) :
    (cycle none e rs).agent.iteration = rs.agent.iteration ∧
    (cycle none e rs).agent.max_iterations = rs.agent.max_iterations ∧
    (cycle none e rs).agent.output_file = rs.agent.output_file ∧
    (cycle none e rs).agent.current_script = rs.agent.current_script ∧
    (cycle none e rs).proposer_calls = rs.proposer_calls + 1 ∧
    (cycle none e rs).executor_calls = rs.executor_calls + 1 ∧
    (cycle none e rs).re_prompts = rs.re_prompts + 1 ∧
    (cycle none e rs).temp_created = rs.temp_created + 1 ∧
    (cycle none e rs).temp_deleted
      = rs.temp_deleted + (if e.unlinks then 1 else 0) ∧
    (cycle none e rs).agent.game_over
      = (e.setsGameOver || rs.agent.game_over
          || decide (rs.agent.max_iterations ≤ rs.agent.iteration)) ∧
    (cycle none e rs).agent.feedback
      = (if e.feedbackOf = .success then .success
         else if rs.agent.max_iterations ≤ rs.agent.iteration then
           .max_iterations_reached
         else e.feedbackOf) := by
  by_cases h : rs.agent.max_iterations ≤ rs.agent.iteration <;>
    cases e <;>
      simp [cycle, generate_yosys_script, execute_yosys_script,
        evaluate_execution, ExecOutcome.unlinks, ExecOutcome.setsGameOver,
        ExecOutcome.feedbackOf, h]

/-- A terminated state absorbs: the driver never runs another cycle. -/
theorem runCycles_gameOver (fuel : Nat) (props : Nat → Option String)
    (execs : Nat → ExecOutcome) (rs : RunState)
    (h : rs.agent.game_over = true) :
    runCycles fuel props execs rs = rs := by
  cases fuel <;> simp [runCycles, h]

/-- Peeling one cycle off the end of a fuelled run. -/
theorem runCycles_succ (fuel : Nat) (props : Nat → Option String)
    (execs : Nat → ExecOutcome) (rs : RunState) :
    runCycles (fuel + 1) props execs rs
      = (if (runCycles fuel props execs rs).agent.game_over then
          runCycles fuel props execs rs
        else
          cycle (props (runCycles fuel props execs rs).proposer_calls)
            (execs (runCycles fuel props execs rs).executor_calls)
            (runCycles fuel props execs rs)) := by
  induction fuel generalizing rs with
  | zero => simp [runCycles]
  | succ n ih =>
      by_cases h : rs.agent.game_over
      · simp [runCycles, h, runCycles_gameOver]
      · rw [show n + 1 + 1 = n + 1 + 1 from rfl]
        conv_lhs => rw [runCycles]
        simp only [h, if_false, Bool.false_eq_true]
        rw [ih]
        conv_rhs => rw [runCycles]
        simp only [h, if_false, Bool.false_eq_true]

/-- Fuel composes. -/
theorem runCycles_add (a b : Nat) (props : Nat → Option String)
    (execs : Nat → ExecOutcome) (rs : RunState) :
    runCycles (a + b) props execs rs
      = runCycles b props execs (runCycles a props execs rs) := by
  induction a generalizing rs with
  | zero => simp [runCycles]
  | succ n ih =>
      by_cases h : rs.agent.game_over
      · simp [runCycles_gameOver _ _ _ _ h]
      · have : n + 1 + b = (n + b) + 1 := by omega
        rw [this]
        conv_lhs => rw [runCycles]
        simp only [h, if_false, Bool.false_eq_true]
        rw [ih]
        congr 1
        conv_rhs => rw [runCycles]
        simp only [h, if_false, Bool.false_eq_true]

/-- The branch handling a recoverable outcome does not set `game_over`. -/
theorem recoverable_setsGameOver {e : ExecOutcome} (h : e.recoverable = true) :
    e.setsGameOver = false := by
  cases e <;> simp_all [ExecOutcome.recoverable, ExecOutcome.setsGameOver]

/-- The branch handling a recoverable outcome unlinks the temporary file. -/
theorem recoverable_unlinks {e : ExecOutcome} (h : e.recoverable = true) :
    e.unlinks = true := by
  cases e <;> simp_all [ExecOutcome.recoverable, ExecOutcome.unlinks]

/-- The feedback of a recoverable outcome is not `success`. -/
theorem recoverable_feedbackOf {e : ExecOutcome} (h : e.recoverable = true) :
    e.feedbackOf ≠ .success := by
  cases e <;> simp_all [ExecOutcome.recoverable, ExecOutcome.feedbackOf]

/-- No node ever writes `output_file`. -/
theorem cycle_output_file (resp : Option String) (e : ExecOutcome) (rs : RunState) :
    (cycle resp e rs).agent.output_file = rs.agent.output_file := by
  cases resp with
  | none => exact (cycle_spec_none e rs).2.2.1
  | some sc => exact (cycle_spec_some sc e rs).2.2.1

/-- The whole run preserves `output_file`. -/
theorem runCycles_output_file (fuel : Nat) (props : Nat → Option String)
    (execs : Nat → ExecOutcome) (rs : RunState) :
    (runCycles fuel props execs rs).agent.output_file = rs.agent.output_file := by
  induction fuel generalizing rs with
  | zero => simp [runCycles]
  | succ n ih =>
      by_cases h : rs.agent.game_over
      · simp [runCycles, h]
      · rw [runCycles]
        simp only [h, Bool.false_eq_true, if_false]
        rw [ih, cycle_output_file]

/-- When every proposal is usable, the run maintains:
`executor_calls = iteration`, `iteration ≤ limit`, and `iteration < limit`
whenever the loop is still live. -/
theorem runCycles_usable_inv (props : Nat → Option String)
    (execs : Nat → ExecOutcome) (hu : ∀ i, (props i).isSome = true)
    (limit : Nat) (fuel : Nat) :
    ∀ rs : RunState, rs.executor_calls = rs.agent.iteration →
      rs.agent.max_iterations = limit →
      rs.agent.iteration ≤ limit →
      (rs.agent.game_over = false → rs.agent.iteration < limit) →
      (runCycles fuel props execs rs).executor_calls
          = (runCycles fuel props execs rs).agent.iteration ∧
        (runCycles fuel props execs rs).agent.max_iterations = limit ∧
        (runCycles fuel props execs rs).agent.iteration ≤ limit ∧
        ((runCycles fuel props execs rs).agent.game_over = false →
          (runCycles fuel props execs rs).agent.iteration < limit) := by
  induction fuel with
  | zero => intro rs h1 h2 h3 h4; exact ⟨h1, h2, h3, h4⟩
  | succ n ih =>
      intro rs h1 h2 h3 h4
      by_cases hg : rs.agent.game_over
      · rw [runCycles]
        simp only [hg, if_true]
        exact ⟨h1, h2, h3, fun hc => by simp at hc⟩
      · have hlt : rs.agent.iteration < limit := h4 (by simpa using hg)
        rw [runCycles]
        simp only [hg, Bool.false_eq_true, if_false]
        obtain ⟨sc, hsc⟩ := Option.isSome_iff_exists.mp (hu rs.proposer_calls)
        rw [hsc]
        obtain ⟨hit, hmax, _, _, _, hexec, _, _, _, hgo, _⟩ :=
          cycle_spec_some sc (execs rs.executor_calls) rs
        apply ih
        · rw [hexec, hit, h1]
        · rw [hmax, h2]
        · rw [hit]; omega
        · intro hgo'
          rw [hit]
          rw [hgo] at hgo'
          simp only [Bool.or_eq_false_iff, decide_eq_false_iff_not] at hgo'
          rw [h2] at hgo'
          omega

/-- After `j` cycles of usable proposals and recoverable outcomes
(`j < limit`), the loop is still live with `iteration = proposer_calls =
executor_calls = j` and all temporary files released. -/
theorem runCycles_reach (props : Nat → Option String)
    (execs : Nat → ExecOutcome) (v s : String) (limit : Nat) :
    ∀ j, (∀ i, i < j → (props i).isSome = true) →
      (∀ i, i < j → (execs i).recoverable = true) → j < limit →
      (runCycles j props execs (initRun v s limit)).agent.game_over = false ∧
        (runCycles j props execs (initRun v s limit)).agent.iteration = j ∧
        (runCycles j props execs (initRun v s limit)).proposer_calls = j ∧
        (runCycles j props execs (initRun v s limit)).executor_calls = j ∧
        (runCycles j props execs (initRun v s limit)).agent.max_iterations = limit ∧
        (runCycles j props execs (initRun v s limit)).temp_created = j ∧
        (runCycles j props execs (initRun v s limit)).temp_deleted = j ∧
        (runCycles j props execs (initRun v s limit)).re_prompts = 0 := by
  intro j
  induction j with
  | zero =>
      intro _ _ _
      simp [runCycles, initRun, initAgent]
  | succ n ih =>
      intro hu hr hlt
      obtain ⟨hgo, hit, hp, he, hm, htc, htd, hrp⟩ :=
        ih (fun i hi => hu i (by omega)) (fun i hi => hr i (by omega)) (by omega)
      rw [runCycles_succ]
      simp only [hgo, Bool.false_eq_true, if_false]
      rw [hp, he]
      obtain ⟨sc, hsc⟩ := Option.isSome_iff_exists.mp (hu n (by omega))
      rw [hsc]
      obtain ⟨cit, cmax, _, _, cp, ce, crp, ctc, ctd, cgo, _⟩ :=
        cycle_spec_some sc (execs n) (runCycles n props execs (initRun v s limit))
      refine ⟨?_, ?_, ?_, ?_, ?_, ?_, ?_, ?_⟩
      · rw [cgo, hgo, hm, hit, recoverable_setsGameOver (hr n (by omega))]
        simp only [Bool.false_or, decide_eq_false_iff_not]
        omega
      · rw [cit, hit]
      · rw [cp, hp]
      · rw [ce, he]
      · rw [cmax, hm]
      · rw [ctc, htc]
      · rw [ctd, htd, recoverable_unlinks (hr n (by omega))]
        simp
      · rw [crp, hrp]

/-! ## Claim theorems -/

/-- C1: after every evaluation step of a round started on a live state,
`game_over` is true iff the feedback is `success`, or the feedback is
`error` (FatalError), or `iteration >= max_iterations`; and once `game_over`
is true, the driver executes no further generate/execute round. -/
theorem C1_termination_invariant (rs : RunState) (resp : Option String)
    (e : ExecOutcome) (props : Nat → Option String)
    (execs : Nat → ExecOutcome) (fuel : Nat) :
    (rs.agent.game_over = false →
      ((cycle resp e rs).agent.game_over = true ↔
        ((cycle resp e rs).agent.feedback = Feedback.success ∨
          (cycle resp e rs).agent.feedback = Feedback.error ∨
          (cycle resp e rs).agent.max_iterations
            ≤ (cycle resp e rs).agent.iteration))) ∧
    (rs.agent.game_over = true → runCycles fuel props execs rs = rs) := by
  constructor
  · intro hg
    cases resp <;> cases e <;>
      by_cases h : rs.agent.max_iterations ≤ rs.agent.iteration <;>
      by_cases h1 : rs.agent.max_iterations ≤ rs.agent.iteration + 1 <;>
        simp [cycle, generate_yosys_script, execute_yosys_script,
          evaluate_execution, hg, h, h1]
  · intro hg
    exact runCycles_gameOver fuel props execs rs hg

/-- C1 witness: concrete instances of both parts of `C1_termination_invariant`
(a successful first round of a 3-round budget, then absorption). -/
theorem C1_termination_invariant_witness :
    (((cycle (some "synth") (ExecOutcome.completed "ok" "")
          (initRun "counter.v" "counter.sdc" 3)).agent.game_over = true ↔
        ((cycle (some "synth") (ExecOutcome.completed "ok" "")
            (initRun "counter.v" "counter.sdc" 3)).agent.feedback = Feedback.success ∨
          (cycle (some "synth") (ExecOutcome.completed "ok" "")
            (initRun "counter.v" "counter.sdc" 3)).agent.feedback = Feedback.error ∨
          (cycle (some "synth") (ExecOutcome.completed "ok" "")
              (initRun "counter.v" "counter.sdc" 3)).agent.max_iterations
            ≤ (cycle (some "synth") (ExecOutcome.completed "ok" "")
                (initRun "counter.v" "counter.sdc" 3)).agent.iteration)) ∧
      runCycles 5 (fun _ => none) (fun _ => ExecOutcome.timedOut)
          (cycle (some "synth") (ExecOutcome.completed "ok" "")
            (initRun "counter.v" "counter.sdc" 3))
        = cycle (some "synth") (ExecOutcome.completed "ok" "")
            (initRun "counter.v" "counter.sdc" 3)) :=
  ⟨(C1_termination_invariant (initRun "counter.v" "counter.sdc" 3) (some "synth")
      (ExecOutcome.completed "ok" "") (fun _ => none) (fun _ => ExecOutcome.timedOut) 5).1
      rfl,
    (C1_termination_invariant
      (cycle (some "synth") (ExecOutcome.completed "ok" "")
        (initRun "counter.v" "counter.sdc" 3)) (some "synth")
      (ExecOutcome.completed "ok" "") (fun _ => none) (fun _ => ExecOutcome.timedOut) 5).2
      rfl⟩

/-- C2 counterexample: with `round_limit = 1` and a Proposer that never
yields a usable candidate, two cycles already invoke the Executor twice,
exceeding the budget (and the loop is not even terminated). -/
theorem C2_counterexample :
    (runCycles 2 (fun _ => none)
        (fun _ => ExecOutcome.calledProcessError 1 "" "boom")
        (initRun "counter.v" "counter.sdc" 1)).executor_calls = 2 ∧
      1 < (runCycles 2 (fun _ => none)
        (fun _ => ExecOutcome.calledProcessError 1 "" "boom")
        (initRun "counter.v" "counter.sdc" 1)).executor_calls ∧
      (runCycles 2 (fun _ => none)
        (fun _ => ExecOutcome.calledProcessError 1 "" "boom")
        (initRun "counter.v" "counter.sdc" 1)).agent.game_over = false :=
  ⟨rfl, by decide, rfl⟩

/-- C2 amended: when every Proposer response yields a usable candidate (and
`round_limit ≥ 1`), one invocation of the loop calls the Executor at most
`round_limit` times, whatever the Executor answers and however much fuel the
driver is given. -/
theorem C2_executor_budget (limit : Nat) (hl : 1 ≤ limit)
    (props : Nat → Option String) (execs : Nat → ExecOutcome)
    (hu : ∀ i, (props i).isSome = true) (fuel : Nat) (v s : String) :
    (runCycles fuel props execs (initRun v s limit)).executor_calls ≤ limit := by
  obtain ⟨h1, _, h3, _⟩ :=
    runCycles_usable_inv props execs hu limit fuel (initRun v s limit)
      rfl rfl (by simp [initRun, initAgent]) (fun _ => by simp [initRun, initAgent]; omega)
  rw [h1]
  exact h3

/-- C2 witness: the budget bound at `round_limit = 1` with ample fuel. -/
theorem C2_executor_budget_witness :
    (runCycles 9 (fun _ => some "synth")
        (fun _ => ExecOutcome.calledProcessError 1 "" "boom")
        (initRun "counter.v" "counter.sdc" 1)).executor_calls ≤ 1 :=
  C2_executor_budget 1 (by decide) (fun _ => some "synth")
    (fun _ => ExecOutcome.calledProcessError 1 "" "boom") (fun _ => rfl) 9
    "counter.v" "counter.sdc"

/-- C3 counterexample: with `round_limit = 0` the loop does not invoke the
Proposer zero times and the Executor zero times — the entry point runs one
full round first, so both are invoked exactly once. -/
theorem C3_counterexample :
    (runCycles 2 (fun _ => some "read_verilog counter.v")
        (fun _ => ExecOutcome.calledProcessError 1 "" "boom")
        (initRun "counter.v" "counter.sdc" 0)).proposer_calls = 1 ∧
      (runCycles 2 (fun _ => some "read_verilog counter.v")
        (fun _ => ExecOutcome.calledProcessError 1 "" "boom")
        (initRun "counter.v" "counter.sdc" 0)).executor_calls = 1 ∧
      (runCycles 2 (fun _ => some "read_verilog counter.v")
        (fun _ => ExecOutcome.calledProcessError 1 "" "boom")
        (initRun "counter.v" "counter.sdc" 0)).agent.feedback
        = Feedback.max_iterations_reached :=
  ⟨rfl, rfl, rfl⟩

/-- C3 amended: invoked with `round_limit = 0`, the loop runs exactly one
round — one Proposer call and one Executor call — and then terminates; the
termination reason is `max_iterations_reached` unless that single Executor
call succeeded, in which case it is `success`. -/
theorem C3_zero_budget (props : Nat → Option String) (execs : Nat → ExecOutcome)
    (fuel : Nat) (hf : 1 ≤ fuel) (v s : String) :
    (runCycles fuel props execs (initRun v s 0)).agent.game_over = true ∧
      (runCycles fuel props execs (initRun v s 0)).proposer_calls = 1 ∧
      (runCycles fuel props execs (initRun v s 0)).executor_calls = 1 ∧
      (runCycles fuel props execs (initRun v s 0)).agent.feedback
        = (if (execs 0).feedbackOf = Feedback.success then Feedback.success
           else Feedback.max_iterations_reached) := by
  have hsplit : fuel = 1 + (fuel - 1) := by omega
  rw [hsplit, runCycles_add]
  have h1 : runCycles 1 props execs (initRun v s 0)
      = cycle (props 0) (execs 0) (initRun v s 0) := by
    rw [runCycles]
    simp [initRun, initAgent, runCycles]
  rw [h1]
  have hgo : (cycle (props 0) (execs 0) (initRun v s 0)).agent.game_over = true := by
    cases hp : props 0 with
    | none =>
        obtain ⟨_, _, _, _, _, _, _, _, _, cgo, _⟩ :=
          cycle_spec_none (execs 0) (initRun v s 0)
        rw [cgo]
        simp [initRun, initAgent]
    | some sc =>
        obtain ⟨_, _, _, _, _, _, _, _, _, cgo, _⟩ :=
          cycle_spec_some sc (execs 0) (initRun v s 0)
        rw [cgo]
        simp [initRun, initAgent]
  rw [runCycles_gameOver (fuel - 1) props execs _ hgo]
  refine ⟨hgo, ?_, ?_, ?_⟩
  · cases hp : props 0 with
    | none => rw [(cycle_spec_none (execs 0) (initRun v s 0)).2.2.2.2.1]; rfl
    | some sc => rw [(cycle_spec_some sc (execs 0) (initRun v s 0)).2.2.2.2.1]; rfl
  · cases hp : props 0 with
    | none => rw [(cycle_spec_none (execs 0) (initRun v s 0)).2.2.2.2.2.1]; rfl
    | some sc => rw [(cycle_spec_some sc (execs 0) (initRun v s 0)).2.2.2.2.2.1]; rfl
  · cases hp : props 0 with
    | none =>
        obtain ⟨_, _, _, _, _, _, _, _, _, _, cfb⟩ :=
          cycle_spec_none (execs 0) (initRun v s 0)
        rw [cfb]
        simp [initRun, initAgent]
    | some sc =>
        obtain ⟨_, _, _, _, _, _, _, _, _, _, cfb⟩ :=
          cycle_spec_some sc (execs 0) (initRun v s 0)
        rw [cfb]
        simp [initRun, initAgent]

/-- C3 witness: `round_limit = 0` with fuel 3 and a timing-out Executor. -/
theorem C3_zero_budget_witness :
    (runCycles 3 (fun _ => some "synth") (fun _ => ExecOutcome.timedOut)
        (initRun "counter.v" "counter.sdc" 0)).agent.game_over = true ∧
      (runCycles 3 (fun _ => some "synth") (fun _ => ExecOutcome.timedOut)
        (initRun "counter.v" "counter.sdc" 0)).proposer_calls = 1 ∧
      (runCycles 3 (fun _ => some "synth") (fun _ => ExecOutcome.timedOut)
        (initRun "counter.v" "counter.sdc" 0)).executor_calls = 1 ∧
      (runCycles 3 (fun _ => some "synth") (fun _ => ExecOutcome.timedOut)
        (initRun "counter.v" "counter.sdc" 0)).agent.feedback
        = (if (ExecOutcome.timedOut).feedbackOf = Feedback.success then Feedback.success
           else Feedback.max_iterations_reached) :=
  C3_zero_budget (fun _ => some "synth") (fun _ => ExecOutcome.timedOut) 3 (by decide)
    "counter.v" "counter.sdc"

/-- An outcome whose feedback is `success` is the success branch, which sets
`game_over`. -/
theorem feedbackOf_success_setsGameOver {e : ExecOutcome}
    (h : e.feedbackOf = Feedback.success) : e.setsGameOver = true := by
  cases e <;> simp_all [ExecOutcome.feedbackOf, ExecOutcome.setsGameOver]

/-- C4: if the first `k - 1` rounds have usable proposals and recoverable
failures and the Executor succeeds on round `k` (`1 ≤ k ≤ round_limit`),
the loop terminates with feedback `success` and `iteration = k`, and with
exactly `k` Proposer calls and `k` Executor calls no matter how much more
fuel the driver has — in particular success on the final round
`k = round_limit` is still reported as `success`. -/
theorem C4_success_terminates (props : Nat → Option String)
    (execs : Nat → ExecOutcome) (v s : String) (limit k : Nat)
    (hk1 : 1 ≤ k) (hk2 : k ≤ limit)
    (hu : ∀ i, i < k → (props i).isSome = true)
    (hr : ∀ i, i + 1 < k → (execs i).recoverable = true)
    (hsucc : (execs (k - 1)).feedbackOf = Feedback.success)
    (fuel : Nat) (hf : k ≤ fuel) :
    (runCycles fuel props execs (initRun v s limit)).agent.game_over = true ∧
      (runCycles fuel props execs (initRun v s limit)).agent.feedback
        = Feedback.success ∧
      (runCycles fuel props execs (initRun v s limit)).agent.iteration = k ∧
      (runCycles fuel props execs (initRun v s limit)).proposer_calls = k ∧
      (runCycles fuel props execs (initRun v s limit)).executor_calls = k := by
  obtain ⟨j, rfl⟩ : ∃ j, k = j + 1 := ⟨k - 1, by omega⟩
  obtain ⟨d, rfl⟩ : ∃ d, fuel = (j + 1) + d := ⟨fuel - (j + 1), by omega⟩
  have hsucc' : (execs j).feedbackOf = Feedback.success := by simpa using hsucc
  obtain ⟨hgo, hit, hp, he, hm, _, _, _⟩ :=
    runCycles_reach props execs v s limit j (fun i hi => hu i (by omega))
      (fun i hi => hr i (by omega)) (by omega)
  obtain ⟨sc, hsc⟩ := Option.isSome_iff_exists.mp (hu j (by omega))
  have hstep : runCycles (j + 1) props execs (initRun v s limit)
      = cycle (some sc) (execs j) (runCycles j props execs (initRun v s limit)) := by
    rw [runCycles_succ]
    simp only [hgo, Bool.false_eq_true, if_false]
    rw [hp, he, hsc]
  obtain ⟨cit, cmax, _, _, cp, ce, _, _, _, cgo, cfb⟩ :=
    cycle_spec_some sc (execs j) (runCycles j props execs (initRun v s limit))
  have hgo1 : (runCycles (j + 1) props execs (initRun v s limit)).agent.game_over
      = true := by
    rw [hstep, cgo, feedbackOf_success_setsGameOver hsucc']
    simp
  have hfb1 : (runCycles (j + 1) props execs (initRun v s limit)).agent.feedback
      = Feedback.success := by
    rw [hstep, cfb]
    simp [hsucc']
  have hit1 : (runCycles (j + 1) props execs (initRun v s limit)).agent.iteration
      = j + 1 := by
    rw [hstep, cit, hit]
  have hpc1 : (runCycles (j + 1) props execs (initRun v s limit)).proposer_calls
      = j + 1 := by
    rw [hstep, cp, hp]
  have hec1 : (runCycles (j + 1) props execs (initRun v s limit)).executor_calls
      = j + 1 := by
    rw [hstep, ce, he]
  rw [runCycles_add, runCycles_gameOver _ _ _ _ hgo1]
  exact ⟨hgo1, hfb1, hit1, hpc1, hec1⟩

/-- C4 witness: the spec scenario `round_limit = 3`, Executor sequence
recoverable, recoverable, success: termination with `success` on round 3. -/
theorem C4_success_terminates_witness :
    (runCycles 3 (fun _ => some "synth")
        (fun i => if i < 2 then ExecOutcome.calledProcessError 1 "" "boom"
          else ExecOutcome.completed "ok" "")
        (initRun "counter.v" "counter.sdc" 3)).agent.game_over = true ∧
      (runCycles 3 (fun _ => some "synth")
        (fun i => if i < 2 then ExecOutcome.calledProcessError 1 "" "boom"
          else ExecOutcome.completed "ok" "")
        (initRun "counter.v" "counter.sdc" 3)).agent.feedback = Feedback.success ∧
      (runCycles 3 (fun _ => some "synth")
        (fun i => if i < 2 then ExecOutcome.calledProcessError 1 "" "boom"
          else ExecOutcome.completed "ok" "")
        (initRun "counter.v" "counter.sdc" 3)).agent.iteration = 3 ∧
      (runCycles 3 (fun _ => some "synth")
        (fun i => if i < 2 then ExecOutcome.calledProcessError 1 "" "boom"
          else ExecOutcome.completed "ok" "")
        (initRun "counter.v" "counter.sdc" 3)).proposer_calls = 3 ∧
      (runCycles 3 (fun _ => some "synth")
        (fun i => if i < 2 then ExecOutcome.calledProcessError 1 "" "boom"
          else ExecOutcome.completed "ok" "")
        (initRun "counter.v" "counter.sdc" 3)).executor_calls = 3 :=
  C4_success_terminates (fun _ => some "synth")
    (fun i => if i < 2 then ExecOutcome.calledProcessError 1 "" "boom"
      else ExecOutcome.completed "ok" "")
    "counter.v" "counter.sdc" 3 3 (by decide) (by decide)
    (fun i _ => rfl)
    (fun i hi => by
      have h2 : i < 2 := by omega
      simp [h2, ExecOutcome.recoverable])
    (by decide) 3 (by decide)

/-- The branch handling a fatal outcome sets `game_over`. -/
theorem fatal_setsGameOver {e : ExecOutcome} (h : e.fatal = true) :
    e.setsGameOver = true := by
  cases e <;> simp_all [ExecOutcome.fatal, ExecOutcome.setsGameOver]

/-- The branch handling a fatal outcome writes feedback `error`. -/
theorem fatal_feedbackOf {e : ExecOutcome} (h : e.fatal = true) :
    e.feedbackOf = Feedback.error := by
  cases e <;> simp_all [ExecOutcome.fatal, ExecOutcome.feedbackOf]

/-- C5 counterexample: a `FileNotFoundError` (FatalError) on the final round
of a 1-round budget terminates the loop, but the reported reason is
`max_iterations_reached`, not `error`: `evaluate_execution` overwrites the
`error` feedback because `iteration >= max_iterations`. -/
theorem C5_counterexample :
    (runCycles 1 (fun _ => some "synth") (fun _ => ExecOutcome.fileNotFound)
        (initRun "counter.v" "counter.sdc" 1)).agent.game_over = true ∧
      (runCycles 1 (fun _ => some "synth") (fun _ => ExecOutcome.fileNotFound)
        (initRun "counter.v" "counter.sdc" 1)).agent.feedback
        = Feedback.max_iterations_reached ∧
      ¬((runCycles 1 (fun _ => some "synth") (fun _ => ExecOutcome.fileNotFound)
        (initRun "counter.v" "counter.sdc" 1)).agent.feedback
        = Feedback.error) :=
  ⟨rfl, rfl, by decide⟩

/-- C5 amended: a fatal Executor outcome terminates the loop immediately
after its round — no further Proposer or Executor calls happen however much
fuel remains — and the reported feedback is `error` (FatalError) when the
iteration count of the round is still below `max_iterations`, but
`max_iterations_reached` when the fatal round was the last budgeted one. -/
theorem C5_fatal_terminates (props : Nat → Option String)
    (execs : Nat → ExecOutcome) (rs : RunState) (fuel : Nat)
    (hg : rs.agent.game_over = false)
    (hfat : (execs rs.executor_calls).fatal = true) :
    runCycles (fuel + 1) props execs rs
        = cycle (props rs.proposer_calls) (execs rs.executor_calls) rs ∧
      (cycle (props rs.proposer_calls) (execs rs.executor_calls) rs).agent.game_over
        = true ∧
      (cycle (props rs.proposer_calls) (execs rs.executor_calls) rs).executor_calls
        = rs.executor_calls + 1 ∧
      (cycle (props rs.proposer_calls) (execs rs.executor_calls) rs).proposer_calls
        = rs.proposer_calls + 1 ∧
      (cycle (props rs.proposer_calls) (execs rs.executor_calls) rs).agent.feedback
        = (if (cycle (props rs.proposer_calls) (execs rs.executor_calls)
                rs).agent.max_iterations
              ≤ (cycle (props rs.proposer_calls) (execs rs.executor_calls)
                rs).agent.iteration
           then Feedback.max_iterations_reached else Feedback.error) := by
  have hgo1 : (cycle (props rs.proposer_calls) (execs rs.executor_calls)
      rs).agent.game_over = true := by
    cases hp : props rs.proposer_calls with
    | none =>
        rw [(cycle_spec_none (execs rs.executor_calls) rs).2.2.2.2.2.2.2.2.2.1,
          fatal_setsGameOver hfat]
        simp
    | some sc =>
        rw [(cycle_spec_some sc (execs rs.executor_calls) rs).2.2.2.2.2.2.2.2.2.1,
          fatal_setsGameOver hfat]
        simp
  have hfirst : runCycles (fuel + 1) props execs rs
      = cycle (props rs.proposer_calls) (execs rs.executor_calls) rs := by
    rw [runCycles]
    simp only [hg, Bool.false_eq_true, if_false]
    exact runCycles_gameOver fuel props execs _ hgo1
  refine ⟨hfirst, hgo1, ?_, ?_, ?_⟩
  · cases hp : props rs.proposer_calls with
    | none => exact (cycle_spec_none (execs rs.executor_calls) rs).2.2.2.2.2.1
    | some sc => exact (cycle_spec_some sc (execs rs.executor_calls) rs).2.2.2.2.2.1
  · cases hp : props rs.proposer_calls with
    | none => exact (cycle_spec_none (execs rs.executor_calls) rs).2.2.2.2.1
    | some sc => exact (cycle_spec_some sc (execs rs.executor_calls) rs).2.2.2.2.1
  · cases hp : props rs.proposer_calls with
    | none =>
        obtain ⟨cit, cmax, _, _, _, _, _, _, _, _, cfb⟩ :=
          cycle_spec_none (execs rs.executor_calls) rs
        rw [cfb, cmax, cit, fatal_feedbackOf hfat]
        simp
    | some sc =>
        obtain ⟨cit, cmax, _, _, _, _, _, _, _, _, cfb⟩ :=
          cycle_spec_some sc (execs rs.executor_calls) rs
        rw [cfb, cmax, cit, fatal_feedbackOf hfat]
        simp
/-- C5 witness: a fatal error on round 1 of a 3-round budget stops the loop
at once with feedback `error`. -/
theorem C5_fatal_terminates_witness :
    runCycles 5 (fun _ => some "synth") (fun _ => ExecOutcome.fileNotFound)
        (initRun "counter.v" "counter.sdc" 3)
        = cycle (some "synth") ExecOutcome.fileNotFound
            (initRun "counter.v" "counter.sdc" 3) ∧
      (cycle (some "synth") ExecOutcome.fileNotFound
        (initRun "counter.v" "counter.sdc" 3)).agent.game_over = true ∧
      (cycle (some "synth") ExecOutcome.fileNotFound
        (initRun "counter.v" "counter.sdc" 3)).executor_calls = 1 ∧
      (cycle (some "synth") ExecOutcome.fileNotFound
        (initRun "counter.v" "counter.sdc" 3)).proposer_calls = 1 ∧
      (cycle (some "synth") ExecOutcome.fileNotFound
        (initRun "counter.v" "counter.sdc" 3)).agent.feedback
        = (if (cycle (some "synth") ExecOutcome.fileNotFound
                (initRun "counter.v" "counter.sdc" 3)).agent.max_iterations
              ≤ (cycle (some "synth") ExecOutcome.fileNotFound
                (initRun "counter.v" "counter.sdc" 3)).agent.iteration
           then Feedback.max_iterations_reached else Feedback.error) :=
  C5_fatal_terminates (fun _ => some "synth") (fun _ => ExecOutcome.fileNotFound)
    (initRun "counter.v" "counter.sdc" 3) 4 rfl rfl

/-- C6: when every Proposer call up to the budget yields a usable candidate
and every Executor call returns a recoverable failure (non-zero exit or
timeout), the loop stops after `round_limit` rounds with feedback
`max_iterations_reached` and `iteration = round_limit`. -/
theorem C6_budget_exhaustion (props : Nat → Option String)
    (execs : Nat → ExecOutcome) (v s : String) (limit : Nat) (hl : 1 ≤ limit)
    (hu : ∀ i, i < limit → (props i).isSome = true)
    (hr : ∀ i, i < limit → (execs i).recoverable = true)
    (fuel : Nat) (hf : limit ≤ fuel) :
    (runCycles fuel props execs (initRun v s limit)).agent.game_over = true ∧
      (runCycles fuel props execs (initRun v s limit)).agent.feedback
        = Feedback.max_iterations_reached ∧
      (runCycles fuel props execs (initRun v s limit)).agent.iteration = limit ∧
      (runCycles fuel props execs (initRun v s limit)).proposer_calls = limit ∧
      (runCycles fuel props execs (initRun v s limit)).executor_calls = limit := by
  obtain ⟨j, rfl⟩ : ∃ j, limit = j + 1 := ⟨limit - 1, by omega⟩
  obtain ⟨d, rfl⟩ : ∃ d, fuel = (j + 1) + d := ⟨fuel - (j + 1), by omega⟩
  obtain ⟨hgo, hit, hp, he, hm, _, _, _⟩ :=
    runCycles_reach props execs v s (j + 1) j (fun i hi => hu i (by omega))
      (fun i hi => hr i (by omega)) (by omega)
  obtain ⟨sc, hsc⟩ := Option.isSome_iff_exists.mp (hu j (by omega))
  have hstep : runCycles (j + 1) props execs (initRun v s (j + 1))
      = cycle (some sc) (execs j)
          (runCycles j props execs (initRun v s (j + 1))) := by
    rw [runCycles_succ]
    simp only [hgo, Bool.false_eq_true, if_false]
    rw [hp, he, hsc]
  obtain ⟨cit, cmax, _, _, cp, ce, _, _, _, cgo, cfb⟩ :=
    cycle_spec_some sc (execs j) (runCycles j props execs (initRun v s (j + 1)))
  have hrecj : (execs j).recoverable = true := hr j (by omega)
  have hgo1 : (runCycles (j + 1) props execs
      (initRun v s (j + 1))).agent.game_over = true := by
    rw [hstep, cgo, hm, hit]
    simp
  have hfb1 : (runCycles (j + 1) props execs
      (initRun v s (j + 1))).agent.feedback = Feedback.max_iterations_reached := by
    rw [hstep, cfb, hm, hit]
    simp [recoverable_feedbackOf hrecj]
  have hit1 : (runCycles (j + 1) props execs
      (initRun v s (j + 1))).agent.iteration = j + 1 := by
    rw [hstep, cit, hit]
  have hpc1 : (runCycles (j + 1) props execs
      (initRun v s (j + 1))).proposer_calls = j + 1 := by
    rw [hstep, cp, hp]
  have hec1 : (runCycles (j + 1) props execs
      (initRun v s (j + 1))).executor_calls = j + 1 := by
    rw [hstep, ce, he]
  rw [runCycles_add, runCycles_gameOver _ _ _ _ hgo1]
  exact ⟨hgo1, hfb1, hit1, hpc1, hec1⟩

/-- C6 witness: the spec scenario `round_limit = 2` with an always-failing
Executor: `max_iterations_reached` and `iteration = 2`. -/
theorem C6_budget_exhaustion_witness :
    (runCycles 2 (fun _ => some "synth")
        (fun _ => ExecOutcome.calledProcessError 1 "" "boom")
        (initRun "counter.v" "counter.sdc" 2)).agent.game_over = true ∧
      (runCycles 2 (fun _ => some "synth")
        (fun _ => ExecOutcome.calledProcessError 1 "" "boom")
        (initRun "counter.v" "counter.sdc" 2)).agent.feedback
        = Feedback.max_iterations_reached ∧
      (runCycles 2 (fun _ => some "synth")
        (fun _ => ExecOutcome.calledProcessError 1 "" "boom")
        (initRun "counter.v" "counter.sdc" 2)).agent.iteration = 2 ∧
      (runCycles 2 (fun _ => some "synth")
        (fun _ => ExecOutcome.calledProcessError 1 "" "boom")
        (initRun "counter.v" "counter.sdc" 2)).proposer_calls = 2 ∧
      (runCycles 2 (fun _ => some "synth")
        (fun _ => ExecOutcome.calledProcessError 1 "" "boom")
        (initRun "counter.v" "counter.sdc" 2)).executor_calls = 2 :=
  C6_budget_exhaustion (fun _ => some "synth")
    (fun _ => ExecOutcome.calledProcessError 1 "" "boom") "counter.v" "counter.sdc"
    2 (by decide) (fun i _ => rfl) (fun i _ => rfl) 2 (by decide)

/-- C7 counterexample: one round with an unusable proposal leaves
`iteration = 0` and appends one corrective re-prompt, but the Executor IS
invoked for that round (the graph edge generate → execute is
unconditional), contradicting the claim that it is not. -/
theorem C7_counterexample :
    (runCycles 1 (fun _ => none) (fun _ => ExecOutcome.calledProcessError 1 "" "boom")
        (initRun "counter.v" "counter.sdc" 5)).agent.iteration = 0 ∧
      (runCycles 1 (fun _ => none)
        (fun _ => ExecOutcome.calledProcessError 1 "" "boom")
        (initRun "counter.v" "counter.sdc" 5)).re_prompts = 1 ∧
      (runCycles 1 (fun _ => none)
        (fun _ => ExecOutcome.calledProcessError 1 "" "boom")
        (initRun "counter.v" "counter.sdc" 5)).executor_calls = 1 :=
  ⟨rfl, rfl, rfl⟩

/-- C7 amended: a round whose Proposer response yields no usable candidate
does not advance `iteration`, leaves `current_script` unchanged, issues
exactly one corrective re-prompt, and the loop continues (still live when
the Executor outcome is recoverable and the budget is not exhausted) — but
the Executor is nevertheless invoked once for such a round, on the stale
`current_script`. -/
theorem C7_unusable_round (e : ExecOutcome) (rs : RunState)
    (hg : rs.agent.game_over = false) (hrec : e.recoverable = true)
    (hlt : rs.agent.iteration < rs.agent.max_iterations) :
    (cycle none e rs).agent.iteration = rs.agent.iteration ∧
      (cycle none e rs).agent.current_script = rs.agent.current_script ∧
      (cycle none e rs).re_prompts = rs.re_prompts + 1 ∧
      (cycle none e rs).proposer_calls = rs.proposer_calls + 1 ∧
      (cycle none e rs).executor_calls = rs.executor_calls + 1 ∧
      (cycle none e rs).agent.game_over = false := by
  obtain ⟨cit, cmax, _, ccur, cp, ce, crp, _, _, cgo, _⟩ := cycle_spec_none e rs
  refine ⟨cit, ccur, crp, cp, ce, ?_⟩
  rw [cgo, hg, recoverable_setsGameOver hrec]
  have hnle : ¬(rs.agent.max_iterations ≤ rs.agent.iteration) := by omega
  simp [hnle]

/-- C7 witness: the unusable-proposal round behaviour at the initial state of
a 5-round budget. -/
theorem C7_unusable_round_witness :
    (cycle none (ExecOutcome.calledProcessError 1 "" "boom")
        (initRun "counter.v" "counter.sdc" 5)).agent.iteration
        = (initRun "counter.v" "counter.sdc" 5).agent.iteration ∧
      (cycle none (ExecOutcome.calledProcessError 1 "" "boom")
        (initRun "counter.v" "counter.sdc" 5)).agent.current_script
        = (initRun "counter.v" "counter.sdc" 5).agent.current_script ∧
      (cycle none (ExecOutcome.calledProcessError 1 "" "boom")
        (initRun "counter.v" "counter.sdc" 5)).re_prompts
        = (initRun "counter.v" "counter.sdc" 5).re_prompts + 1 ∧
      (cycle none (ExecOutcome.calledProcessError 1 "" "boom")
        (initRun "counter.v" "counter.sdc" 5)).proposer_calls
        = (initRun "counter.v" "counter.sdc" 5).proposer_calls + 1 ∧
      (cycle none (ExecOutcome.calledProcessError 1 "" "boom")
        (initRun "counter.v" "counter.sdc" 5)).executor_calls
        = (initRun "counter.v" "counter.sdc" 5).executor_calls + 1 ∧
      (cycle none (ExecOutcome.calledProcessError 1 "" "boom")
        (initRun "counter.v" "counter.sdc" 5)).agent.game_over = false :=
  C7_unusable_round (ExecOutcome.calledProcessError 1 "" "boom")
    (initRun "counter.v" "counter.sdc" 5) rfl rfl (by decide)

/-- C8: with the external tool absent (`FileNotFoundError`, a FatalError
termination), the temporary `.ys` script file created by
`execute_yosys_script` is NOT deleted — the `except FileNotFoundError` and
generic `except Exception` branches lack the `os.unlink` call the other
three branches have — so a temporary file remains after the loop returns. -/
theorem C8_temp_file_leak :
    (runCycles 5 (fun _ => some "read_verilog counter.v")
        (fun _ => ExecOutcome.fileNotFound)
        (initRun "counter.v" "counter.sdc" 5)).agent.game_over = true ∧
      (runCycles 5 (fun _ => some "read_verilog counter.v")
        (fun _ => ExecOutcome.fileNotFound)
        (initRun "counter.v" "counter.sdc" 5)).agent.feedback = Feedback.error ∧
      (runCycles 5 (fun _ => some "read_verilog counter.v")
        (fun _ => ExecOutcome.fileNotFound)
        (initRun "counter.v" "counter.sdc" 5)).temp_created = 1 ∧
      (runCycles 5 (fun _ => some "read_verilog counter.v")
        (fun _ => ExecOutcome.fileNotFound)
        (initRun "counter.v" "counter.sdc" 5)).temp_deleted = 0 :=
  ⟨rfl, rfl, rfl, rfl⟩

/-- C10: because `run_yosys_script_loop` puts the key `"output_file"` (with
value `""`) into the initial state, `initialize_yosys_game` is the identity
on that state — the derivation of the output filename from the Verilog path
is never executed — and `output_file` is still `""` in the state returned by
the loop, whatever the Proposer and Executor do. -/
theorem C10_output_file_unchanged (v s : String) (limit fuel : Nat)
    (props : Nat → Option String) (execs : Nat → ExecOutcome) :
    initialize_yosys_game (initAgent v s limit).toDict
        = (initAgent v s limit).toDict ∧
      ((initAgent v s limit).toDict).output_file = some "" ∧
      (runCycles fuel props execs (initRun v s limit)).agent.output_file = "" := by
  refine ⟨initialize_total_id _, rfl, ?_⟩
  rw [runCycles_output_file]
  rfl

/-! ## Lemmas about `extract_script_from_text` -/

/-- Splitting never produces the empty list of pieces. -/
theorem split_on_char_ne_nil (sep : Char) (l : List Char) :
    split_on_char sep l ≠ [] := by
  induction l with
  | nil => simp [split_on_char]
  | cons c rest ih =>
      by_cases h : c = sep
      · simp [split_on_char, h]
      · simp only [split_on_char, h, if_false]
        rcases hr : split_on_char sep rest with _ | ⟨p, ps⟩ <;> simp

/-- No piece produced by `split_on_char` contains the separator. -/
theorem split_on_char_not_mem (sep : Char) :
    ∀ (l : List Char), ∀ piece ∈ split_on_char sep l, sep ∉ piece := by
  intro l
  induction l with
  | nil =>
      intro piece hp
      simp [split_on_char] at hp
      simp [hp]
  | cons c rest ih =>
      intro piece hp
      by_cases h : c = sep
      · simp only [split_on_char, h, if_true] at hp
        rcases List.mem_cons.mp hp with rfl | hp
        · simp
        · exact ih piece hp
      · simp only [split_on_char, h, if_false] at hp
        rcases hr : split_on_char sep rest with _ | ⟨p, ps⟩
        · exact absurd hr (split_on_char_ne_nil sep rest)
        · rw [hr] at hp
          rcases List.mem_cons.mp hp with rfl | hp
          · intro hmem
            rcases List.mem_cons.mp hmem with rfl | hmem
            · exact h rfl
            · exact ih p (by rw [hr]; exact List.mem_cons_self p ps) hmem
          · exact ih piece (by rw [hr]; exact List.mem_cons_of_mem p hp)

/-- Splitting a separator-free list yields that single piece. -/
theorem split_on_char_of_not_mem (sep : Char) (l : List Char) (h : sep ∉ l) :
    split_on_char sep l = [l] := by
  induction l with
  | nil => rfl
  | cons c rest ih =>
      have hc : ¬c = sep := fun hc => h (by simp [hc])
      have hrest := ih (fun hm => h (List.mem_cons_of_mem c hm))
      simp [split_on_char, hc, hrest]

/-- Splitting after a separator-free prefix peels that prefix off. -/
theorem split_on_char_append (sep : Char) (l r : List Char) (h : sep ∉ l) :
    split_on_char sep (l ++ sep :: r) = l :: split_on_char sep r := by
  induction l with
  | nil => simp [split_on_char]
  | cons c t ih =>
      have hc : ¬c = sep := fun hc => h (by simp [hc])
      have ht := ih (fun hm => h (List.mem_cons_of_mem c hm))
      simp [split_on_char, hc, ht]

/-- Splitting on the newline is a left inverse of joining with it, on non-empty lists of
newline-free lines. -/
theorem splitLines_joinLines :
    ∀ (S : List (List Char)), S ≠ [] → (∀ x ∈ S, nl ∉ x) →
      splitLines (joinLines S) = S := by
  intro S
  induction S with
  | nil => intro h; exact absurd rfl h
  | cons x S' ih =>
      intro _ h
      cases S' with
      | nil =>
          simp only [joinLines, splitLines]
          exact split_on_char_of_not_mem nl x (h x (by simp))
      | cons y ls =>
          have hx : nl ∉ x := h x (by simp)
          have hrec := ih (by simp) (fun z hz => h z (List.mem_cons_of_mem x hz))
          simp only [joinLines, splitLines] at hrec ⊢
          rw [split_on_char_append nl x _ hx, hrec]

/-- The first survivor of `dropWhile` fails the predicate. -/
theorem dropWhile_head_false (p : Char → Bool) :
    ∀ (l : List Char) (c : Char) (rest : List Char),
      l.dropWhile p = c :: rest → p c = false := by
  intro l
  induction l with
  | nil => intro c rest h; simp [List.dropWhile] at h
  | cons a t ih =>
      intro c rest h
      by_cases ha : p a
      · rw [List.dropWhile_cons, if_pos ha] at h
        exact ih c rest h
      · rw [List.dropWhile_cons, if_neg ha] at h
        obtain ⟨rfl, -⟩ := List.cons.injEq .. ▸ h
        · exact Bool.eq_false_iff.mpr ha

/-- `dropWhile` keeps a list whose head fails the predicate. -/
theorem dropWhile_eq_self_of_head (p : Char → Bool) (l : List Char)
    (h : ∀ c, l.head? = some c → p c = false) : l.dropWhile p = l := by
  cases l with
  | nil => rfl
  | cons a t =>
      rw [List.dropWhile_cons, if_neg]
      rw [h a rfl]
      simp

/-- Stripping only removes characters. -/
theorem mem_pyStrip {c : Char} {l : List Char} (h : c ∈ pyStrip l) : c ∈ l := by
  unfold pyStrip at h
  rw [List.mem_reverse] at h
  have h1 := (List.dropWhile_sublist pyIsSpace).subset h
  rw [List.mem_reverse] at h1
  exact (List.dropWhile_sublist pyIsSpace).subset h1

/-- The first character of a stripped list is not whitespace. -/
theorem pyStrip_head {l : List Char} {c : Char}
    (h : (pyStrip l).head? = some c) : pyIsSpace c = false := by
  unfold pyStrip at h
  rw [List.head?_reverse] at h
  have hsuffix := List.dropWhile_suffix (l := (l.dropWhile pyIsSpace).reverse) pyIsSpace
  obtain ⟨u, hu⟩ := hsuffix
  rcases hr : (l.dropWhile pyIsSpace).reverse.dropWhile pyIsSpace with _ | ⟨a, t⟩
  · rw [hr] at h; simp at h
  · rw [hr] at h hu
    have hlast : ((l.dropWhile pyIsSpace).reverse).getLast? = some c := by
      rw [← hu, List.getLast?_append_of_ne_nil u (by simp)]
      exact h
    rw [List.getLast?_reverse] at hlast
    rcases hm : l.dropWhile pyIsSpace with _ | ⟨b, s⟩
    · rw [hm] at hlast; simp at hlast
    · rw [hm] at hlast
      simp only [List.head?_cons, Option.some.injEq] at hlast
      subst hlast
      exact dropWhile_head_false pyIsSpace l b s hm

/-- The last character of a stripped list is not whitespace. -/
theorem pyStrip_getLast {l : List Char} {c : Char}
    (h : (pyStrip l).getLast? = some c) : pyIsSpace c = false := by
  unfold pyStrip at h
  rw [List.getLast?_reverse] at h
  rcases hr : (l.dropWhile pyIsSpace).reverse.dropWhile pyIsSpace with _ | ⟨a, t⟩
  · rw [hr] at h; simp at h
  · rw [hr] at h
    simp only [List.head?_cons, Option.some.injEq] at h
    subst h
    exact dropWhile_head_false pyIsSpace _ _ _ hr

/-- Stripping fixes a list whose two ends are not whitespace. -/
theorem pyStrip_eq_self {l : List Char}
    (hh : ∀ c, l.head? = some c → pyIsSpace c = false)
    (hl : ∀ c, l.getLast? = some c → pyIsSpace c = false) : pyStrip l = l := by
  unfold pyStrip
  rw [dropWhile_eq_self_of_head pyIsSpace l hh]
  rw [dropWhile_eq_self_of_head pyIsSpace l.reverse
    (fun c hc => hl c (by rwa [List.head?_reverse] at hc))]
  simp

/-- Python `strip` is idempotent. -/
theorem pyStrip_idem (l : List Char) : pyStrip (pyStrip l) = pyStrip l :=
  pyStrip_eq_self (fun _ hc => pyStrip_head hc) (fun _ hc => pyStrip_getLast hc)

/-- The joined text starts with the first line's first character. -/
theorem joinLines_head? (S : List (List Char)) (x : List Char)
    (hx : S.head? = some x) (hne : x ≠ []) :
    (joinLines S).head? = x.head? := by
  cases S with
  | nil => simp at hx
  | cons y S' =>
      simp only [List.head?_cons, Option.some.injEq] at hx
      subst hx
      cases S' with
      | nil => rfl
      | cons z ls =>
          simp only [joinLines]
          exact List.head?_append_of_ne_nil _ hne

/-- The joined text ends with the last line's last character (when all lines
are non-empty). -/
theorem joinLines_getLast? :
    ∀ (S : List (List Char)) (t : List Char), (∀ x ∈ S, x ≠ []) →
      S.getLast? = some t → (joinLines S).getLast? = t.getLast? := by
  intro S
  induction S with
  | nil => intro t _ ht; simp at ht
  | cons x S' ih =>
      intro t hne ht
      cases S' with
      | nil =>
          simp only [List.getLast?_singleton, Option.some.injEq] at ht
          subst ht
          rfl
      | cons y ls =>
          rw [List.getLast?_cons_cons] at ht
          have hrec := ih t (fun z hz => hne z (List.mem_cons_of_mem x hz)) ht
          have htne : t ≠ [] :=
            hne t (List.mem_cons_of_mem x (List.mem_of_mem_getLast? ht))
          obtain ⟨c, hc⟩ : ∃ c, t.getLast? = some c := by
            cases hg : t.getLast? with
            | none => exact absurd (List.getLast?_eq_none_iff.mp hg) htne
            | some c => exact ⟨c, rfl⟩
          have hJ : (joinLines (y :: ls)) ≠ [] := by
            intro h0
            rw [h0] at hrec
            rw [hc] at hrec
            simp at hrec
          simp only [joinLines]
          rw [List.getLast?_append_of_ne_nil x (by simp)]
          cases hJ' : joinLines (y :: ls) with
          | nil => exact absurd hJ' hJ
          | cons a as =>
              rw [List.getLast?_cons_cons]
              rw [← hJ', hrec]

/-- Joining non-empty strip-fixed lines is itself strip-fixed. -/
theorem pyStrip_joinLines_eq (S : List (List Char))
    (h : ∀ x ∈ S, x ≠ [] ∧ pyStrip x = x) :
    pyStrip (joinLines S) = joinLines S := by
  cases S with
  | nil => rfl
  | cons x S' =>
      obtain ⟨hxne, hxfix⟩ := h x (by simp)
      apply pyStrip_eq_self
      · intro c hc
        rw [joinLines_head? (x :: S') x rfl hxne] at hc
        rw [← hxfix] at hc
        exact pyStrip_head hc
      · intro c hc
        obtain ⟨t, ht⟩ : ∃ t, (x :: S').getLast? = some t := by
          cases hg : (x :: S').getLast? with
          | none => simp [List.getLast?_eq_none_iff] at hg
          | some t => exact ⟨t, rfl⟩
        obtain ⟨htne, htfix⟩ := h t (List.mem_of_mem_getLast? ht)
        rw [joinLines_getLast? (x :: S') t (fun z hz => (h z hz).1) ht] at hc
        rw [← htfix] at hc
        exact pyStrip_getLast hc

/-- The empty line is not a Yosys command line. -/
theorem looks_like_nil : looks_like_yosys_command [] = false := by decide

/-- One pass-1 step either leaves the collected lines alone or appends the
stripped current line, which then looks like a Yosys command and is
non-empty. -/
theorem extract_step_script_lines (st : ExtractState) (raw : List Char) :
    (extract_step st raw).script_lines = st.script_lines ∨
      ((extract_step st raw).script_lines = st.script_lines ++ [pyStrip raw] ∧
        looks_like_yosys_command (pyStrip raw) = true ∧
        (pyStrip raw).isEmpty = false) := by
  simp only [extract_step]
  split_ifs with h1 h2 h3 h4
  · left; rfl
  · left; rfl
  · left; rfl
  · right
    refine ⟨rfl, ?_, ?_⟩
    · simp only [Bool.and_eq_true] at h4
      exact h4.2
    · simp only [Bool.and_eq_true, Bool.not_eq_true'] at h4
      exact h4.1.2
  · left; rfl

/-- Everything pass 1 collects looks like a Yosys command, is non-empty,
strip-fixed and newline-free. -/
theorem extract_fold_inv :
    ∀ (lines : List (List Char)) (st : ExtractState),
      (∀ raw ∈ lines, nl ∉ raw) →
      (∀ x ∈ st.script_lines, looks_like_yosys_command x = true ∧ x ≠ [] ∧
        pyStrip x = x ∧ nl ∉ x) →
      ∀ x ∈ (lines.foldl extract_step st).script_lines,
        looks_like_yosys_command x = true ∧ x ≠ [] ∧ pyStrip x = x ∧ nl ∉ x := by
  intro lines
  induction lines with
  | nil => intro st _ hst x hx; exact hst x hx
  | cons raw rest ih =>
      intro st hnl hst x hx
      simp only [List.foldl_cons] at hx
      refine ih (extract_step st raw)
        (fun r hr => hnl r (List.mem_cons_of_mem _ hr)) ?_ x hx
      intro y hy
      rcases extract_step_script_lines st raw with h | ⟨h, hl, hne⟩
      · rw [h] at hy; exact hst y hy
      · rw [h] at hy
        rcases List.mem_append.mp hy with hy | hy
        · exact hst y hy
        · have hyr : y = pyStrip raw := by simpa using hy
          subst hyr
          refine ⟨hl, ?_, pyStrip_idem raw, ?_⟩
          · intro h0
            rw [h0] at hne
            simp at hne
          · intro hmem
            exact (hnl raw (by simp)) (mem_pyStrip hmem)

/-- If no stripped line looks like a Yosys command, pass 1 collects
nothing. -/
theorem extract_fold_none :
    ∀ (lines : List (List Char)) (st : ExtractState),
      (∀ raw ∈ lines, looks_like_yosys_command (pyStrip raw) = false) →
      (lines.foldl extract_step st).script_lines = st.script_lines := by
  intro lines
  induction lines with
  | nil => intro st _; rfl
  | cons raw rest ih =>
      intro st hfail
      simp only [List.foldl_cons]
      rw [ih (extract_step st raw)
        (fun r hr => hfail r (List.mem_cons_of_mem _ hr))]
      rcases extract_step_script_lines st raw with h | ⟨_, hl, _⟩
      · exact h
      · rw [hfail raw (by simp)] at hl
        simp at hl

/-- Joining, stripping and re-splitting a list of collected lines yields
exactly those lines, each of which looks like a Yosys command. -/
theorem extract_assembled (S : List (List Char))
    (h : ∀ x ∈ S, looks_like_yosys_command x = true ∧ x ≠ [] ∧
      pyStrip x = x ∧ nl ∉ x) :
    pyStrip (joinLines S) = [] ∨
      ∀ line ∈ splitLines (pyStrip (joinLines S)),
        looks_like_yosys_command line = true := by
  cases S with
  | nil => left; rfl
  | cons x S' =>
      right
      have hstrip : pyStrip (joinLines (x :: S')) = joinLines (x :: S') :=
        pyStrip_joinLines_eq (x :: S') (fun z hz => ⟨(h z hz).2.1, (h z hz).2.2.1⟩)
      rw [hstrip,
        splitLines_joinLines (x :: S') (by simp) (fun z hz => (h z hz).2.2.2)]
      intro line hline
      exact (h line hline).1

/-- C9: every line of the string returned by `extract_script_from_text`
either starts with `#` or contains (case-insensitively) one of the
recognised Yosys command keywords — that is, it satisfies
`looks_like_yosys_command` — unless the result is empty; and when no
(stripped) input line qualifies, the function returns the empty string. -/
theorem C9_extract_lines (text : List Char) :
    (extract_script_from_text text = [] ∨
      ∀ line ∈ splitLines (extract_script_from_text text),
        looks_like_yosys_command line = true) ∧
    ((∀ raw ∈ splitLines text, looks_like_yosys_command (pyStrip raw) = false) →
      extract_script_from_text text = []) := by
  have hnl : ∀ raw ∈ splitLines text, nl ∉ raw := fun raw hr =>
    split_on_char_not_mem nl text raw hr
  constructor
  · simp only [extract_script_from_text]
    refine extract_assembled _ ?_
    intro x hx
    split at hx
    · obtain ⟨raw, hraw, hfr⟩ := List.mem_filterMap.mp hx
      split at hfr
      · obtain rfl : pyStrip raw = x := by simpa using hfr
        rename_i hc
        refine ⟨hc, ?_, pyStrip_idem raw, ?_⟩
        · intro h0
          rw [h0, looks_like_nil] at hc
          simp at hc
        · intro hmem
          exact (hnl raw hraw) (mem_pyStrip hmem)
      · simp at hfr
    · exact extract_fold_inv (splitLines text) ⟨false, false, []⟩ hnl
        (fun y hy => absurd hy (List.not_mem_nil y)) x hx
  · intro hfail
    simp only [extract_script_from_text]
    have hempty : (((splitLines text).foldl extract_step
        ⟨false, false, []⟩).script_lines) = [] :=
      extract_fold_none (splitLines text) ⟨false, false, []⟩ hfail
    rw [hempty]
    rw [if_pos (show (List.isEmpty ([] : List (List Char))) = true from rfl)]
    rw [List.filterMap_eq_nil_iff.mpr ?_]
    · rfl
    · intro raw hraw
      rw [if_neg]
      rw [hfail raw hraw]
      simp

/-- C9 witness: a text with no qualifying line extracts to the empty
string. -/
theorem C9_extract_lines_witness :
    extract_script_from_text ("hello world".toList) = [] :=
  (C9_extract_lines ("hello world".toList)).2 (by decide)
